/-
Verification of the nbconvert HTTP handler layer
(`notebook/nbconvert/handlers.py`).

The file shallowly embeds the handler module: the external collaborators
(the nbconvert engine, the nbformat codec, the json stdlib codec, the
contents manager) are modelled as injected parameters, exactly as the
Python code consumes them duck-typed; the logic of the handler file
itself (format resolution, resource-descriptor assembly, zip-vs-raw
response packaging, the two route handlers) is translated line by line.
-/
import Mathlib

set_option autoImplicit false
set_option linter.unusedVariables false

namespace Nbconvert

/-- Byte strings, as Python `bytes`. -/
abbrev Bytes := List UInt8

/-- UTF-8 encoding of a string, as Python `s.encode('utf-8')`. -/
def utf8Bytes (s : String) : Bytes := s.toUTF8.toList

/-- A Python value that is either `str` or `bytes` — the type of the
primary conversion payload. -/
inductive Output where
  | text (s : String)
  | bytes (b : Bytes)
deriving DecidableEq

/-- `ipython_genutils.py3compat.cast_bytes(x, 'utf-8')`: encode a `str`
as UTF-8, pass `bytes` through unchanged. -/
def cast_bytes : Output → Bytes
  | .text s => utf8Bytes s
  | .bytes b => b

/-- Python `s.rfind(c)`: index of the last occurrence of `c`, `-1` when
absent. -/
def pyRFind (s : String) (c : Char) : Int :=
  match s.data.reverse.findIdx? (fun d => d = c) with
  | some j => ((s.data.length - 1 - j : Nat) : Int)
  | none => -1

/-- Python slicing `s[:k]` with a possibly negative bound. -/
def pySliceTo (s : String) (k : Int) : String :=
  let n : Int := (s.data.length : Int)
  let stop := if k < 0 then k + n else k
  ⟨s.data.take (max 0 (min stop n)).toNat⟩

/-- The stem of `posixpath.splitext(p)`: drop the final extension, where
an extension is a final dot-suffix of the basename whose leading
characters (after skipping the basename's leading dots) contain at least
one non-dot character. Faithful to CPython `genericpath._splitext`. -/
def splitextStem (p : String) : String :=
  let sepIndex := pyRFind p '/'
  let dotIndex := pyRFind p '.'
  if sepIndex < dotIndex then
    let filenameStart := (sepIndex + 1).toNat
    let base := (p.data.drop filenameStart).take (dotIndex.toNat - filenameStart)
    if base.any (fun c => c ≠ '.') then ⟨p.data.take dotIndex.toNat⟩ else p
  else p

/-- Python `s.lower()` restricted to the ASCII range that matters for
the `download` flag values, character by character. -/
def pyLower (s : String) : String :=
  ⟨s.data.map Char.toLower⟩

/-- Python `path.strip('/')`. -/
def stripSlashes (s : String) : String :=
  ⟨((s.data.dropWhile (fun c => c = '/')).reverse.dropWhile (fun c => c = '/')).reverse⟩

/-- The head component of `os.path.split(p)` (posix): everything up to
the final slash, with trailing slashes stripped unless the head is all
slashes. -/
def os_path_split_head (p : String) : String :=
  let i := ((pyRFind p '/') + 1).toNat
  let head : String := ⟨p.data.take i⟩
  if head ≠ "" ∧ head.data.any (fun c => c ≠ '/') then
    ⟨(head.data.reverse.dropWhile (fun c => c = '/')).reverse⟩
  else head

/-- One member of a zip archive: stored filename and stored bytes. -/
structure ZipEntry where
  filename : String
  data : Bytes
deriving DecidableEq

/-- An in-memory zip archive as built by `zipfile.ZipFile(buffer, mode='w',
compression=zipfile.ZIP_DEFLATED)`: the compression method and the entries
in the order they were written. -/
structure ZipArchive where
  deflated : Bool
  entries : List ZipEntry
deriving DecidableEq

/-- The resources mapping an exporter returns: the optional `outputs`
sub-mapping of auxiliary filename-to-bytes entries (insertion ordered, as
a Python dict), and the `output_extension` entry. -/
structure Resources where
  outputs : Option (List (String × Bytes))
  output_extension : String
deriving DecidableEq

/-- The response headers this layer sets. `attachmentFilename` is the
filename carried by a `Content-Disposition: attachment` header (before
the framework-side URL escaping). -/
structure Headers where
  lastModified : Option String := none
  contentType : Option String := none
  attachmentFilename : Option String := none
deriving DecidableEq

/-- A finished response body: the raw payload, or a zip archive. -/
inductive ResponseBody where
  | raw (payload : Output)
  | zip (archive : ZipArchive)
deriving DecidableEq

/-- A finished 200 response. -/
structure Response where
  headers : Headers
  body : ResponseBody
deriving DecidableEq

/-- `respond_zip(handler, name, output, resources)`: when the resources
carry a truthy `outputs` mapping, set the zip headers on the handler's
pending headers `hs`, build the archive (primary payload first, then the
auxiliary entries in mapping order) and finish the response; otherwise
return `none` (Python `False`) so the caller serves the plain output. -/
def respond_zip (hs : Headers) (name : String) (output : Output)
    (resources : Resources) : Option Response :=
  match resources.outputs with
  | none => none
  | some output_files =>
    if output_files = [] then none
    else
      let zip_filename := splitextStem name ++ ".zip"
      let output_filename := splitextStem name ++ resources.output_extension
      some
        { headers :=
            { hs with
              attachmentFilename := some zip_filename
              contentType := some "application/zip" }
          body := .zip
            { deflated := true
              entries := ⟨output_filename, cast_bytes output⟩ ::
                output_files.map (fun fd => ⟨fd.1, fd.2⟩) } }

/-- A JSON value, as returned by the framework's request-body parsing. -/
inductive Json where
  | null
  | bool (b : Bool)
  | num (n : Int)
  | str (s : String)
  | arr (elems : List Json)
  | obj (fields : List (String × Json))

/-- Python `d.get(k)` on a parsed JSON value: field lookup on an object,
`None` otherwise. -/
def jsonGet (j : Json) (k : String) : Option Json :=
  match j with
  | .obj fields => fields.lookup k
  | _ => none

/-- A notebook document (`nbformat.NotebookNode`), opaque to this layer. -/
structure NotebookNode where
  rep : String
deriving DecidableEq

/-- A traitlets `Config`: an ambient layer list; `Config(c)` copies it and
`c.merge(j)` stacks a further override layer on top. -/
structure Config where
  layers : List Json

/-- `c.merge(json_config)`. -/
def Config.merge (c : Config) (j : Json) : Config :=
  ⟨c.layers ++ [j]⟩

/-- A Python exception escaping a handler; the framework maps it to a
generic 500 fault. -/
inductive PyError where
  | typeError (msg : String)
  | valueError (msg : String)
  | keyError (key : String)
deriving DecidableEq

/-- A `tornado.web.HTTPError`. -/
structure HttpError where
  code : Nat
  msg : String
deriving DecidableEq

/-- The `metadata` sub-dict of the resource dictionary handed to the
exporter. Optional fields are keys the code may leave out. -/
structure ResourceMetadata where
  name : String
  modified_date : Option String := none
  path : Option String := none
deriving DecidableEq

/-- The resource dictionary handed to `from_notebook_node`.
`output_files_dir` is `none` when the handler passes no such key. -/
structure ResourceDict where
  metadata : ResourceMetadata
  config_dir : String
  output_files_dir : Option String := none
deriving DecidableEq

/-- A constructed exporter instance: its declared output MIME type (the
empty string standing for a falsy/absent one) and its
`from_notebook_node` conversion call, which may raise. -/
structure Exporter where
  output_mimetype : String
  from_notebook_node : NotebookNode → ResourceDict → Except String (Output × Resources)

/-- An exporter class from the engine's registry; constructing an
instance from a configuration may raise. -/
structure ExporterClass where
  construct : Config → Except String Exporter

/-- The external nbconvert library as this layer sees it: whether it can
be imported at all, and the format-name registry (`none` = `KeyError`). -/
structure EngineLib where
  importable : Bool
  importErrMsg : String
  lookup : String → Option ExporterClass

/-- The remaining external helpers the handlers call: `json.dumps`,
`json.loads`-style string parsing, `nbformat.reads`, `nbformat.from_dict`
and `datetime.strftime(text.date_format)`. All are opaque black boxes. -/
structure Env where
  json_dumps : Json → String
  json_parse : String → Except String Json
  nbformat_reads : String → NotebookNode
  from_dict : Json → NotebookNode
  strftime : String → String

/-- Python `json.loads(x)` applied to an arbitrary already-parsed value:
a `TypeError` unless `x` is a string, a `ValueError` when the string does
not parse. -/
def json_loads (env : Env) : Json → Except PyError Json
  | .str s =>
    match env.json_parse s with
    | .ok j => .ok j
    | .error e => .error (.valueError e)
  | _ => .error (.typeError "the JSON object must be str, bytes or bytearray")

/-- `get_exporter(format, **kwargs)` of the handler module: map an import
failure to a 500, an unknown format to a 404 naming the format, and a
construction failure to a 500. (The construction failure is additionally
logged via `app_log.exception`; no claim touches that log line.) -/
def get_exporter (lib : EngineLib) (format : String) (config : Config) :
    Except HttpError Exporter :=
  if lib.importable = false then
    .error ⟨500, "Could not import nbconvert: " ++ lib.importErrMsg⟩
  else
    match lib.lookup format with
    | none => .error ⟨404, "No exporter for format: " ++ format⟩
    | some cls =>
      match cls.construct config with
      | .ok exporter => .ok exporter
      | .error e => .error ⟨500, "Could not construct Exporter: " ++ e⟩

/-- The storage model returned by `contents_manager.get(path)`. -/
structure ContentsModel where
  name : String
  type : String
  content : NotebookNode
  last_modified : String
deriving DecidableEq

/-- The contents manager collaborator: `os_path` is `some` exactly when
the manager `hasattr '_get_os_path'` (the default file-backed manager),
and `get` resolves a path to a storage model. -/
structure ContentsManager where
  os_path : Option (String → String)
  get : String → ContentsModel

/-- How a request ends: a finished 200 response, a redirect to the
file-serving route, an `HTTPError`, or an uncaught Python exception
(which the framework reports as a generic 500 fault). -/
inductive Outcome where
  | ok (r : Response)
  | redirect (path : String)
  | httpError (e : HttpError)
  | pyError (e : PyError)
deriving DecidableEq

/-- One observed run of a handler: the outcome, the conversion-engine
invocations it performed (document and resource dictionary passed to
`from_notebook_node`), and the log lines it emitted. -/
structure HandlerRun where
  outcome : Outcome
  engineCalls : List (NotebookNode × ResourceDict)
  logLines : List String
deriving DecidableEq

/-- `NbconvertFileHandler.call_nbconvert(format, path, config, content)`:
resolve the exporter, resolve the path against the contents manager,
redirect when the target is not a notebook, decode the inline content
when one was posted, set `Last-Modified`, build the resource dictionary,
invoke the engine (failures logged and mapped to a 500), and package the
response as zip or raw with the download/MIME headers.  `downloadArg` is
the request's `download` query argument; `config_dir` is the
application-settings entry of that name. -/
def call_nbconvert (env : Env) (lib : EngineLib) (cm : ContentsManager)
    (config_dir : String) (downloadArg : Option String)
    (format : String) (path : String) (config : Config)
    (content : Option String) : HandlerRun :=
  match get_exporter lib format config with
  | .error e => ⟨.httpError e, [], []⟩
  | .ok exporter =>
    let path := stripSlashes path
    let ext_resources_dir : Option String :=
      match cm.os_path with
      | some toOsPath => some (os_path_split_head (toOsPath path))
      | none => none
    let model := cm.get path
    let name := model.name
    if model.type ≠ "notebook" then
      ⟨.redirect path, [], []⟩
    else
      let nb := match content with
        | none => model.content
        | some c => env.nbformat_reads c
      let hs : Headers := { lastModified := some model.last_modified }
      let mod_date := env.strftime model.last_modified
      let nb_title := splitextStem name
      let resource_dict : ResourceDict :=
        { metadata :=
            { name := nb_title
              modified_date := some mod_date
              path := match ext_resources_dir with
                | some d => if d ≠ "" then some d else none
                | none => none }
          config_dir := config_dir
          output_files_dir := some (nb_title ++ "_files") }
      match exporter.from_notebook_node nb resource_dict with
      | .error e =>
        ⟨.httpError ⟨500, "nbconvert failed: " ++ e⟩,
          [(nb, resource_dict)], ["nbconvert failed: " ++ e]⟩
      | .ok (output, resources) =>
        match respond_zip hs name output resources with
        | some resp => ⟨.ok resp, [(nb, resource_dict)], []⟩
        | none =>
          let fname := splitextStem name ++ resources.output_extension
          let hs :=
            if pyLower (downloadArg.getD "false") = "true" then
              { hs with attachmentFilename := some fname }
            else hs
          let ctype := exporter.output_mimetype ++ "; charset=utf-8"
          let hs :=
            if exporter.output_mimetype ≠ "" then
              { hs with contentType := some ctype }
            else hs
          ⟨.ok ⟨hs, .raw output⟩, [(nb, resource_dict)], []⟩

namespace NbconvertFileHandler

/-- The GET route of `NbconvertFileHandler`: convert the stored notebook
at `path`, with the ambient configuration and no inline content. -/
def handler_get (env : Env) (lib : EngineLib) (cm : ContentsManager)
    (config_dir : String) (downloadArg : Option String)
    (format : String) (path : String) (ambient : Config) : HandlerRun :=
  call_nbconvert env lib cm config_dir downloadArg format path ambient none

/-- The POST route of `NbconvertFileHandler`: copy the ambient
configuration, `json.loads` the body's `config` member (defaulting to an
empty dict — note, a dict, not a string), merge it, `json.dumps` the
body's `notebook` member, and delegate to `call_nbconvert` with that
inline content. Uncaught Python errors in the body handling surface as
`Outcome.pyError`. -/
def handler_post (env : Env) (lib : EngineLib) (cm : ContentsManager)
    (config_dir : String) (downloadArg : Option String)
    (format : String) (path : String) (ambient : Config)
    (json_upload : Json) : HandlerRun :=
  let c := Config.mk ambient.layers
  match json_loads env ((jsonGet json_upload "config").getD (Json.obj [])) with
  | .error e => ⟨.pyError e, [], []⟩
  | .ok json_config =>
    let c := c.merge json_config
    match jsonGet json_upload "notebook" with
    | none => ⟨.pyError (.keyError "notebook"), [], []⟩
    | some nbJson =>
      let nb_content := env.json_dumps nbJson
      call_nbconvert env lib cm config_dir downloadArg format path c (some nb_content)

end NbconvertFileHandler

namespace NbconvertPostHandler

/-- The body's `name` member as the Python expression
`model.get('name', 'notebook.ipynb')` sliced below: a missing member
falls back to the default; a present non-string member makes the later
`name[:name.rfind('.')]` raise a `TypeError`. -/
def bodyName (model : Json) : Except PyError String :=
  match jsonGet model "name" with
  | some (.str s) => .ok s
  | none => .ok "notebook.ipynb"
  | some _ => .error (.typeError "string indices must be integers")

/-- The POST route of `NbconvertPostHandler` (`/nbconvert/{format}`):
resolve the exporter from the ambient configuration, read the inline
notebook from the body (`from_dict(model['content'])`), invoke the
engine with a metadata name of `name[:name.rfind('.')]` and no
output-files directory (failures mapped to a 500 without logging), and
package the response as zip or raw. The route never reads the
`download` query argument, so `downloadArg` is deliberately unused. -/
def handler_post (env : Env) (lib : EngineLib) (config_dir : String)
    (downloadArg : Option String) (format : String) (ambient : Config)
    (model : Json) : HandlerRun :=
  match get_exporter lib format ambient with
  | .error e => ⟨.httpError e, [], []⟩
  | .ok exporter =>
    match bodyName model with
    | .error e => ⟨.pyError e, [], []⟩
    | .ok name =>
      match jsonGet model "content" with
      | none => ⟨.pyError (.keyError "content"), [], []⟩
      | some contentJson =>
        let nbnode := env.from_dict contentJson
        let resource_dict : ResourceDict :=
          { metadata := { name := pySliceTo name (pyRFind name '.') }
            config_dir := config_dir
            output_files_dir := none }
        match exporter.from_notebook_node nbnode resource_dict with
        | .error e =>
          ⟨.httpError ⟨500, "nbconvert failed: " ++ e⟩, [(nbnode, resource_dict)], []⟩
        | .ok (output, resources) =>
          let hs : Headers := {}
          match respond_zip hs name output resources with
          | some resp => ⟨.ok resp, [(nbnode, resource_dict)], []⟩
          | none =>
            let ctype := exporter.output_mimetype ++ "; charset=utf-8"
            let hs :=
              if exporter.output_mimetype ≠ "" then
                { hs with contentType := some ctype }
              else hs
            ⟨.ok ⟨hs, .raw output⟩, [(nbnode, resource_dict)], []⟩

end NbconvertPostHandler

/-! Concrete fixtures used by the closed witness and counterexample
theorems: a black-box environment, three exporters (plain, resource
producing, failing), a registry holding them and a file-backed contents
manager serving one notebook. -/

/-- A concrete black-box environment for witnesses. -/
def sampleEnv : Env :=
  { json_dumps := fun _ => "{}"
    json_parse := fun _ => .ok (Json.obj [])
    nbformat_reads := fun s => ⟨"reads:" ++ s⟩
    from_dict := fun _ => ⟨"fromdict"⟩
    strftime := fun s => "strftime:" ++ s }

/-- The resources the sample HTML exporter returns: no auxiliary
outputs. -/
def htmlResources : Resources :=
  { outputs := none, output_extension := ".html" }

/-- A sample exporter producing a plain HTML payload and no auxiliary
outputs. -/
def htmlExporter : Exporter :=
  { output_mimetype := "text/html"
    from_notebook_node := fun _ _ => .ok (.text "<html/>", htmlResources) }

/-- The resources the sample LaTeX exporter returns: one auxiliary
output file. -/
def latexResources : Resources :=
  { outputs := some [("foo_files/img1.png", [137])], output_extension := ".tex" }

/-- A sample exporter producing one auxiliary output file. -/
def latexExporter : Exporter :=
  { output_mimetype := "text/latex"
    from_notebook_node := fun _ _ => .ok (.text "tex", latexResources) }

/-- A sample exporter whose conversion call always raises. -/
def failingExporter : Exporter :=
  { output_mimetype := "text/html"
    from_notebook_node := fun _ _ => .error "boom" }

/-- A concrete registry: `html`, `latex` and `failing` resolve; anything
else is unregistered. -/
def sampleLib : EngineLib :=
  { importable := true
    importErrMsg := ""
    lookup := fun format =>
      if format = "html" then some ⟨fun _ => .ok htmlExporter⟩
      else if format = "latex" then some ⟨fun _ => .ok latexExporter⟩
      else if format = "failing" then some ⟨fun _ => .ok failingExporter⟩
      else none }

/-- A concrete file-backed contents manager holding the notebook
`foo.ipynb` at every path. -/
def sampleCM : ContentsManager :=
  { os_path := some (fun p => "/srv/books/" ++ p)
    get := fun _ =>
      { name := "foo.ipynb", type := "notebook"
        content := ⟨"disk-content"⟩, last_modified := "2015-01-02T03:04:05" } }

/-- A contents manager whose target resolves to a plain file. -/
def plainFileCM : ContentsManager :=
  { sampleCM with
    get := fun _ =>
      { name := "foo.txt", type := "file"
        content := ⟨"plain"⟩, last_modified := "2015-01-02T03:04:05" } }

/-- Auxiliary: a nonempty string followed by the charset suffix is never
the bare zip content type — the lengths already disagree. -/
theorem mime_charset_ne_zip (m : String) (hm : m ≠ "") :
    m ++ "; charset=utf-8" ≠ "application/zip" := by
  intro h
  have hlen := congrArg String.length h
  rw [String.length_append] at hlen
  have : m.length = 0 := by
    have hc : ("; charset=utf-8" : String).length = 15 := by decide
    have hz : ("application/zip" : String).length = 15 := by decide
    rw [hc, hz] at hlen
    omega
  apply hm
  cases m with
  | mk d =>
    simp [String.length] at this
    simp [this]

/-- Auxiliary: `respond_zip` declines exactly when the `outputs` mapping
is absent or empty. -/
theorem respond_zip_falsy (hs : Headers) (name : String) (output : Output)
    (resources : Resources)
    (h : resources.outputs = none ∨ resources.outputs = some []) :
    respond_zip hs name output resources = none := by
  rcases h with h | h <;> simp [respond_zip, h]

/-- Auxiliary: the response `respond_zip` produces on a truthy `outputs`
mapping, in full. -/
theorem respond_zip_truthy (hs : Headers) (name : String) (output : Output)
    (resources : Resources) (ofs : List (String × Bytes))
    (h : resources.outputs = some ofs) (hne : ofs ≠ []) :
    respond_zip hs name output resources = some
      { headers :=
          { hs with
            attachmentFilename := some (splitextStem name ++ ".zip")
            contentType := some "application/zip" }
        body := .zip
          { deflated := true
            entries := ⟨splitextStem name ++ resources.output_extension,
                cast_bytes output⟩ :: ofs.map (fun fd => ⟨fd.1, fd.2⟩) } } := by
  simp [respond_zip, h, hne]

/-- C1: when the returned resources carry a non-empty `outputs` mapping,
the served archive is deflate-compressed and holds exactly
`len(outputs) + 1` entries: first the primary payload, UTF-8 encoded,
under the name-stem followed by the output extension, then every entry
of the mapping under its own filename with its bytes unchanged. -/
theorem C1_zip_archive_contents (hs : Headers) (name : String)
    (output : Output) (resources : Resources) (ofs : List (String × Bytes))
    (houts : resources.outputs = some ofs) (hne : ofs ≠ []) :
    ∃ resp z, respond_zip hs name output resources = some resp ∧
      resp.body = .zip z ∧
      z.deflated = true ∧
      z.entries.length = ofs.length + 1 ∧
      z.entries.head? = some ⟨splitextStem name ++ resources.output_extension,
        cast_bytes output⟩ ∧
      z.entries.tail = ofs.map (fun fd => ⟨fd.1, fd.2⟩) := by
  rw [respond_zip_truthy hs name output resources ofs houts hne]
  exact ⟨_, _, rfl, rfl, rfl, by simp, rfl, rfl⟩

/-- Witness for C1 at a concrete conversion: one auxiliary output file
gives a two-entry archive led by `foo.html`. -/
theorem C1_zip_archive_contents_witness :
    (Resources.mk (some [("img.png", [1, 2])]) ".html").outputs
        = some [("img.png", [1, 2])] ∧
      ∃ resp z,
        respond_zip {} "foo.ipynb" (.text "hi")
            (Resources.mk (some [("img.png", [1, 2])]) ".html") = some resp ∧
        resp.body = .zip z ∧
        z.deflated = true ∧
        z.entries.length = 1 + 1 ∧
        z.entries.head? = some ⟨splitextStem "foo.ipynb" ++ ".html",
          cast_bytes (.text "hi")⟩ ∧
        z.entries.tail = [("img.png", [1, 2])].map
          (fun fd => ZipEntry.mk fd.1 fd.2) :=
  ⟨rfl, C1_zip_archive_contents {} "foo.ipynb" (.text "hi")
    (Resources.mk (some [("img.png", [1, 2])]) ".html")
    [("img.png", [1, 2])] rfl (by decide)⟩

/-- C2: on both routes, a request that reaches response packaging is
answered with a zip body and the `application/zip` content type exactly
when the exporter's resources carry a non-empty `outputs` mapping; with
an empty or absent mapping the raw payload is served and the content
type is never `application/zip`. -/
theorem C2_zip_iff_outputs :
    (∀ (env : Env) (lib : EngineLib) (cm : ContentsManager)
        (config_dir : String) (dl : Option String) (format path : String)
        (config : Config) (content : Option String) (exporter : Exporter)
        (output : Output) (resources : Resources),
      get_exporter lib format config = .ok exporter →
      (cm.get (stripSlashes path)).type = "notebook" →
      (∀ nb rd, exporter.from_notebook_node nb rd = .ok (output, resources)) →
      ∃ resp,
        (call_nbconvert env lib cm config_dir dl format path config
            content).outcome = .ok resp ∧
        (((∃ z, resp.body = .zip z) ∧
            resp.headers.contentType = some "application/zip") ↔
          ∃ l, resources.outputs = some l ∧ l ≠ []) ∧
        ((resources.outputs = none ∨ resources.outputs = some []) →
          resp.body = .raw output ∧
          resp.headers.contentType ≠ some "application/zip")) ∧
    (∀ (env : Env) (lib : EngineLib) (config_dir : String)
        (dl : Option String) (format : String) (ambient : Config)
        (model : Json) (exporter : Exporter) (name : String)
        (contentJson : Json) (output : Output) (resources : Resources),
      get_exporter lib format ambient = .ok exporter →
      NbconvertPostHandler.bodyName model = .ok name →
      jsonGet model "content" = some contentJson →
      (∀ nb rd, exporter.from_notebook_node nb rd = .ok (output, resources)) →
      ∃ resp,
        (NbconvertPostHandler.handler_post env lib config_dir dl format
            ambient model).outcome = .ok resp ∧
        (((∃ z, resp.body = .zip z) ∧
            resp.headers.contentType = some "application/zip") ↔
          ∃ l, resources.outputs = some l ∧ l ≠ []) ∧
        ((resources.outputs = none ∨ resources.outputs = some []) →
          resp.body = .raw output ∧
          resp.headers.contentType ≠ some "application/zip")) := by
  constructor
  · intro env lib cm config_dir dl format path config content exporter
      output resources hexp htype heng
    simp only [call_nbconvert, hexp, htype, heng, ne_eq, not_true_eq_false,
      if_false, ite_false]
    rcases hout : resources.outputs with _ | l
    · rw [respond_zip_falsy _ _ _ _ (Or.inl hout)]
      by_cases hdl : (pyLower (dl.getD "false") = "true") <;>
        by_cases hm : exporter.output_mimetype = "" <;>
          simp [hdl, hm, hout] <;>
          exact fun h => mime_charset_ne_zip _ hm h
    · by_cases hl : l = []
      · subst hl
        rw [respond_zip_falsy _ _ _ _ (Or.inr hout)]
        by_cases hdl : (pyLower (dl.getD "false") = "true") <;>
          by_cases hm : exporter.output_mimetype = "" <;>
            simp [hdl, hm, hout] <;>
            exact fun h => mime_charset_ne_zip _ hm h
      · rw [respond_zip_truthy _ _ _ _ l hout hl]
        refine ⟨_, rfl, ?_, ?_⟩
        · simp [hout, hl]
        · intro h
          exfalso
          rcases h with h | h
          · exact Option.noConfusion h
          · exact hl (Option.some.inj h)
  · intro env lib config_dir dl format ambient model exporter name
      contentJson output resources hexp hname hcontent heng
    simp only [NbconvertPostHandler.handler_post, hexp, hname, hcontent, heng]
    rcases hout : resources.outputs with _ | l
    · rw [respond_zip_falsy _ _ _ _ (Or.inl hout)]
      by_cases hm : exporter.output_mimetype = "" <;>
        simp [hm, hout] <;>
        exact fun h => mime_charset_ne_zip _ hm h
    · by_cases hl : l = []
      · subst hl
        rw [respond_zip_falsy _ _ _ _ (Or.inr hout)]
        by_cases hm : exporter.output_mimetype = "" <;>
          simp [hm, hout] <;>
          exact fun h => mime_charset_ne_zip _ hm h
      · rw [respond_zip_truthy _ _ _ _ l hout hl]
        refine ⟨_, rfl, ?_, ?_⟩
        · simp [hout, hl]
        · intro h
          exfalso
          rcases h with h | h
          · exact Option.noConfusion h
          · exact hl (Option.some.inj h)

/-- Witness for C2 on the path route: the sample LaTeX conversion, which
produces one auxiliary file, is served as a zip. -/
theorem C2_zip_iff_outputs_witness :
    get_exporter sampleLib "latex" ⟨[]⟩ = .ok latexExporter ∧
    (sampleCM.get (stripSlashes "sub/foo.ipynb")).type = "notebook" ∧
    (∃ resp,
      (call_nbconvert sampleEnv sampleLib sampleCM "/cfg" none "latex"
          "sub/foo.ipynb" ⟨[]⟩ none).outcome = .ok resp ∧
      (((∃ z, resp.body = .zip z) ∧
          resp.headers.contentType = some "application/zip") ↔
        ∃ l, latexResources.outputs = some l ∧ l ≠ []) ∧
      ((latexResources.outputs = none ∨ latexResources.outputs = some []) →
        resp.body = .raw (.text "tex") ∧
        resp.headers.contentType ≠ some "application/zip")) :=
  ⟨rfl, rfl, C2_zip_iff_outputs.1 sampleEnv sampleLib sampleCM "/cfg" none
    "latex" "sub/foo.ipynb" ⟨[]⟩ none latexExporter (.text "tex")
    latexResources rfl rfl (fun _ _ => rfl)⟩

/-- C3 counterexample: on the path-based POST route an unregistered
format does not yield a 404 when the body lacks a `config` member — the
dict default handed to `json.loads` raises a `TypeError` before the
format is ever resolved, so the framework reports a generic fault
instead. -/
theorem C3_counterexample :
    (NbconvertFileHandler.handler_post sampleEnv sampleLib sampleCM "/cfg"
        none "nosuchformat" "foo.ipynb" ⟨[]⟩
        (Json.obj [("notebook", Json.obj [])])).outcome =
      .pyError (.typeError "the JSON object must be str, bytes or bytearray") ∧
    ∀ msg, (NbconvertFileHandler.handler_post sampleEnv sampleLib sampleCM
        "/cfg" none "nosuchformat" "foo.ipynb" ⟨[]⟩
        (Json.obj [("notebook", Json.obj [])])).outcome ≠
      .httpError ⟨404, msg⟩ := by
  refine ⟨rfl, fun msg h => ?_⟩
  exact Outcome.noConfusion (rfl.trans h)

/-- C3 (amended): with the engine importable and the format unregistered,
the GET-by-path route and the submit-by-body route answer 404 with a
message naming the format whatever the path or body; the POST-by-path
route answers the same 404 for every body whose `config` and `notebook`
members process successfully (the body is handled before the format is
resolved, so a malformed body raises first). -/
theorem C3_unknown_format_404 :
    (∀ (env : Env) (lib : EngineLib) (cm : ContentsManager)
        (config_dir : String) (dl : Option String) (format path : String)
        (ambient : Config),
      lib.importable = true → lib.lookup format = none →
      (NbconvertFileHandler.handler_get env lib cm config_dir dl format path
          ambient).outcome =
        .httpError ⟨404, "No exporter for format: " ++ format⟩) ∧
    (∀ (env : Env) (lib : EngineLib) (config_dir : String)
        (dl : Option String) (format : String) (ambient : Config)
        (model : Json),
      lib.importable = true → lib.lookup format = none →
      (NbconvertPostHandler.handler_post env lib config_dir dl format ambient
          model).outcome =
        .httpError ⟨404, "No exporter for format: " ++ format⟩) ∧
    (∀ (env : Env) (lib : EngineLib) (cm : ContentsManager)
        (config_dir : String) (dl : Option String) (format path : String)
        (ambient : Config) (body : Json) (cs : String) (cj nbJson : Json),
      lib.importable = true → lib.lookup format = none →
      jsonGet body "config" = some (.str cs) →
      env.json_parse cs = .ok cj →
      jsonGet body "notebook" = some nbJson →
      (NbconvertFileHandler.handler_post env lib cm config_dir dl format path
          ambient body).outcome =
        .httpError ⟨404, "No exporter for format: " ++ format⟩) := by
  refine ⟨?_, ?_, ?_⟩
  · intro env lib cm config_dir dl format path ambient himp hlook
    simp [NbconvertFileHandler.handler_get, call_nbconvert, get_exporter,
      himp, hlook]
  · intro env lib config_dir dl format ambient model himp hlook
    simp [NbconvertPostHandler.handler_post, get_exporter, himp, hlook]
  · intro env lib cm config_dir dl format path ambient body cs cj nbJson
      himp hlook hcs hparse hnb
    simp [NbconvertFileHandler.handler_post, json_loads, hcs, hparse, hnb,
      call_nbconvert, get_exporter, himp, hlook]

/-- Witness for C3 at a concrete unregistered format on the GET route. -/
theorem C3_unknown_format_404_witness :
    sampleLib.importable = true ∧ sampleLib.lookup "pdfy" = none ∧
    (NbconvertFileHandler.handler_get sampleEnv sampleLib sampleCM "/cfg"
        none "pdfy" "foo.ipynb" ⟨[]⟩).outcome =
      .httpError ⟨404, "No exporter for format: " ++ "pdfy"⟩ :=
  ⟨rfl, rfl, C3_unknown_format_404.1 sampleEnv sampleLib sampleCM "/cfg" none
    "pdfy" "foo.ipynb" ⟨[]⟩ rfl rfl⟩

/-- C4 counterexample: an engine exception on the submit-by-body route is
converted to a 500 but nothing is logged, against the claim that every
engine exception is logged on either route. -/
theorem C4_counterexample :
    (NbconvertPostHandler.handler_post sampleEnv sampleLib "/cfg" none
        "failing" ⟨[]⟩
        (Json.obj [("content", Json.obj []), ("name", Json.str "x.ipynb")])).outcome =
      .httpError ⟨500, "nbconvert failed: boom"⟩ ∧
    (NbconvertPostHandler.handler_post sampleEnv sampleLib "/cfg" none
        "failing" ⟨[]⟩
        (Json.obj [("content", Json.obj []), ("name", Json.str "x.ipynb")])).logLines =
      [] := ⟨rfl, rfl⟩

/-- C4 (amended): every engine exception is caught and converted to a 500
carrying the short summary on both routes; the path route additionally
logs the failure, while the submit-by-body route logs nothing. -/
theorem C4_engine_exception_500 :
    (∀ (env : Env) (lib : EngineLib) (cm : ContentsManager)
        (config_dir : String) (dl : Option String) (format path : String)
        (config : Config) (content : Option String) (exporter : Exporter)
        (e : String),
      get_exporter lib format config = .ok exporter →
      (cm.get (stripSlashes path)).type = "notebook" →
      (∀ nb rd, exporter.from_notebook_node nb rd = .error e) →
      (call_nbconvert env lib cm config_dir dl format path config
          content).outcome = .httpError ⟨500, "nbconvert failed: " ++ e⟩ ∧
      (call_nbconvert env lib cm config_dir dl format path config
          content).logLines = ["nbconvert failed: " ++ e]) ∧
    (∀ (env : Env) (lib : EngineLib) (config_dir : String)
        (dl : Option String) (format : String) (ambient : Config)
        (model : Json) (exporter : Exporter) (name : String)
        (contentJson : Json) (e : String),
      get_exporter lib format ambient = .ok exporter →
      NbconvertPostHandler.bodyName model = .ok name →
      jsonGet model "content" = some contentJson →
      (∀ nb rd, exporter.from_notebook_node nb rd = .error e) →
      (NbconvertPostHandler.handler_post env lib config_dir dl format ambient
          model).outcome = .httpError ⟨500, "nbconvert failed: " ++ e⟩ ∧
      (NbconvertPostHandler.handler_post env lib config_dir dl format ambient
          model).logLines = []) := by
  constructor
  · intro env lib cm config_dir dl format path config content exporter e
      hexp htype heng
    simp [call_nbconvert, hexp, htype, heng]
  · intro env lib config_dir dl format ambient model exporter name
      contentJson e hexp hname hcontent heng
    simp [NbconvertPostHandler.handler_post, hexp, hname, hcontent, heng]

/-- Witness for C4 on the path route with the sample failing exporter:
500 answered and the failure logged. -/
theorem C4_engine_exception_500_witness :
    get_exporter sampleLib "failing" ⟨[]⟩ = .ok failingExporter ∧
    (sampleCM.get (stripSlashes "foo.ipynb")).type = "notebook" ∧
    ((call_nbconvert sampleEnv sampleLib sampleCM "/cfg" none "failing"
        "foo.ipynb" ⟨[]⟩ none).outcome =
      .httpError ⟨500, "nbconvert failed: " ++ "boom"⟩ ∧
    (call_nbconvert sampleEnv sampleLib sampleCM "/cfg" none "failing"
        "foo.ipynb" ⟨[]⟩ none).logLines = ["nbconvert failed: " ++ "boom"]) :=
  ⟨rfl, rfl, C4_engine_exception_500.1 sampleEnv sampleLib sampleCM "/cfg"
    none "failing" "foo.ipynb" ⟨[]⟩ none failingExporter "boom" rfl rfl
    (fun _ _ => rfl)⟩

/-- C5: with the format resolving to an exporter, a path whose storage
object is not a notebook is answered by a redirect to the file-serving
route, with no engine invocation and nothing logged; this covers both
the GET and the POST variant of the path route, which share
`call_nbconvert`. -/
theorem C5_non_notebook_redirect (env : Env) (lib : EngineLib)
    (cm : ContentsManager) (config_dir : String) (dl : Option String)
    (format path : String) (config : Config) (content : Option String)
    (exporter : Exporter)
    (hexp : get_exporter lib format config = .ok exporter)
    (htype : (cm.get (stripSlashes path)).type ≠ "notebook") :
    call_nbconvert env lib cm config_dir dl format path config content =
      ⟨.redirect (stripSlashes path), [], []⟩ := by
  simp [call_nbconvert, hexp, htype]

/-- Witness for C5: fetching a plain text file redirects. -/
theorem C5_non_notebook_redirect_witness :
    get_exporter sampleLib "html" ⟨[]⟩ = .ok htmlExporter ∧
    (plainFileCM.get (stripSlashes "foo.txt")).type ≠ "notebook" ∧
    call_nbconvert sampleEnv sampleLib plainFileCM "/cfg" none "html"
        "foo.txt" ⟨[]⟩ none =
      ⟨.redirect (stripSlashes "foo.txt"), [], []⟩ :=
  ⟨rfl, by decide, C5_non_notebook_redirect sampleEnv sampleLib plainFileCM
    "/cfg" none "html" "foo.txt" ⟨[]⟩ none htmlExporter rfl (by decide)⟩
/-- Sanity checks pinning the embedded `splitext` stem to CPython's
behaviour on representative names. -/
theorem splitextStem_behaviour :
    splitextStem "foo.ipynb" = "foo" ∧ splitextStem ".bashrc" = ".bashrc" ∧
    splitextStem "a.b.c" = "a.b" ∧ splitextStem "foo" = "foo" := by decide

/-- C6 counterexample: the submit-by-body route ignores the `download`
query argument — a non-zip response to a request carrying
`download=true` has no attachment disposition. -/
theorem C6_counterexample :
    ∃ resp,
      (NbconvertPostHandler.handler_post sampleEnv sampleLib "/cfg"
          (some "true") "html" ⟨[]⟩
          (Json.obj [("content", Json.obj []),
            ("name", Json.str "x.ipynb")])).outcome = .ok resp ∧
      resp.body = .raw (.text "<html/>") ∧
      resp.headers.attachmentFilename = none :=
  ⟨_, rfl, rfl, rfl⟩

/-- C6 (amended): on the path route (GET and POST share
`call_nbconvert`) a non-zip response to `download=true` carries an
attachment disposition named after the title and output extension, and
none when the argument is `false` or absent; the submit-by-body route
never sets a disposition on a non-zip response, whatever the `download`
argument. -/
theorem C6_download_disposition :
    (∀ (env : Env) (lib : EngineLib) (cm : ContentsManager)
        (config_dir : String) (format path : String) (config : Config)
        (content : Option String) (exporter : Exporter) (output : Output)
        (resources : Resources),
      get_exporter lib format config = .ok exporter →
      (cm.get (stripSlashes path)).type = "notebook" →
      (∀ nb rd, exporter.from_notebook_node nb rd = .ok (output, resources)) →
      (resources.outputs = none ∨ resources.outputs = some []) →
      ∃ resp,
        (call_nbconvert env lib cm config_dir (some "true") format path
            config content).outcome = .ok resp ∧
        resp.body = .raw output ∧
        resp.headers.attachmentFilename =
          some (splitextStem (cm.get (stripSlashes path)).name ++
            resources.output_extension)) ∧
    (∀ (env : Env) (lib : EngineLib) (cm : ContentsManager)
        (config_dir : String) (dl : Option String) (format path : String)
        (config : Config) (content : Option String) (exporter : Exporter)
        (output : Output) (resources : Resources),
      dl = none ∨ dl = some "false" →
      get_exporter lib format config = .ok exporter →
      (cm.get (stripSlashes path)).type = "notebook" →
      (∀ nb rd, exporter.from_notebook_node nb rd = .ok (output, resources)) →
      (resources.outputs = none ∨ resources.outputs = some []) →
      ∃ resp,
        (call_nbconvert env lib cm config_dir dl format path config
            content).outcome = .ok resp ∧
        resp.body = .raw output ∧
        resp.headers.attachmentFilename = none) ∧
    (∀ (env : Env) (lib : EngineLib) (config_dir : String)
        (dl : Option String) (format : String) (ambient : Config)
        (model : Json) (exporter : Exporter) (name : String)
        (contentJson : Json) (output : Output) (resources : Resources),
      get_exporter lib format ambient = .ok exporter →
      NbconvertPostHandler.bodyName model = .ok name →
      jsonGet model "content" = some contentJson →
      (∀ nb rd, exporter.from_notebook_node nb rd = .ok (output, resources)) →
      (resources.outputs = none ∨ resources.outputs = some []) →
      ∃ resp,
        (NbconvertPostHandler.handler_post env lib config_dir dl format
            ambient model).outcome = .ok resp ∧
        resp.body = .raw output ∧
        resp.headers.attachmentFilename = none) := by
  have htrue : pyLower "true" = "true" := by decide
  refine ⟨?_, ?_, ?_⟩
  · intro env lib cm config_dir format path config content exporter output
      resources hexp htype heng hfalsy
    simp only [call_nbconvert, hexp, htype, heng, ne_eq, not_true_eq_false,
      if_false, ite_false]
    rw [respond_zip_falsy _ _ _ _ hfalsy]
    by_cases hm : exporter.output_mimetype = "" <;>
      simp [htrue, hm]
  · intro env lib cm config_dir dl format path config content exporter
      output resources hdl hexp htype heng hfalsy
    have hfalse : ¬ (pyLower (dl.getD "false") = "true") := by
      rcases hdl with h | h <;> subst h <;> decide
    simp only [call_nbconvert, hexp, htype, heng, ne_eq, not_true_eq_false,
      if_false, ite_false]
    rw [respond_zip_falsy _ _ _ _ hfalsy]
    by_cases hm : exporter.output_mimetype = "" <;>
      simp [hfalse, hm]
  · intro env lib config_dir dl format ambient model exporter name
      contentJson output resources hexp hname hcontent heng hfalsy
    simp only [NbconvertPostHandler.handler_post, hexp, hname, hcontent, heng]
    rw [respond_zip_falsy _ _ _ _ hfalsy]
    by_cases hm : exporter.output_mimetype = "" <;> simp [hm]

/-- Witness for C6: `download=true` on the sample HTML conversion forces
an attachment named `foo.html`. -/
theorem C6_download_disposition_witness :
    get_exporter sampleLib "html" ⟨[]⟩ = .ok htmlExporter ∧
    (sampleCM.get (stripSlashes "foo.ipynb")).type = "notebook" ∧
    (htmlResources.outputs = none ∨ htmlResources.outputs = some []) ∧
    ∃ resp,
      (call_nbconvert sampleEnv sampleLib sampleCM "/cfg" (some "true")
          "html" "foo.ipynb" ⟨[]⟩ none).outcome = .ok resp ∧
      resp.body = .raw (.text "<html/>") ∧
      resp.headers.attachmentFilename =
        some (splitextStem (sampleCM.get (stripSlashes "foo.ipynb")).name ++
          htmlResources.output_extension) :=
  ⟨rfl, rfl, Or.inl rfl, C6_download_disposition.1 sampleEnv sampleLib
    sampleCM "/cfg" "html" "foo.ipynb" ⟨[]⟩ none htmlExporter
    (.text "<html/>") htmlResources rfl rfl (fun _ _ => rfl) (Or.inl rfl)⟩

/-- Auxiliary: `respond_zip` never touches the `Last-Modified` header it
was handed. -/
theorem respond_zip_lastModified (hs : Headers) (name : String)
    (output : Output) (resources : Resources) (resp : Response)
    (h : respond_zip hs name output resources = some resp) :
    resp.headers.lastModified = hs.lastModified := by
  rcases hout : resources.outputs with _ | l
  · rw [respond_zip_falsy _ _ _ _ (Or.inl hout)] at h
    exact Option.noConfusion h
  · by_cases hl : l = []
    · subst hl
      rw [respond_zip_falsy _ _ _ _ (Or.inr hout)] at h
      exact Option.noConfusion h
    · rw [respond_zip_truthy _ _ _ _ l hout hl] at h
      cases Option.some.inj h
      rfl

/-- Auxiliary: on a successful conversion the path route answers 200,
keeps the `Last-Modified` header taken from the storage model, and
invokes the engine exactly once with the content-determined document and
the resource dictionary the handler assembles. -/
theorem call_nbconvert_engine_spec (env : Env) (lib : EngineLib)
    (cm : ContentsManager) (config_dir : String) (dl : Option String)
    (format path : String) (config : Config) (content : Option String)
    (exporter : Exporter) (output : Output) (resources : Resources)
    (hexp : get_exporter lib format config = .ok exporter)
    (htype : (cm.get (stripSlashes path)).type = "notebook")
    (heng : ∀ nb rd, exporter.from_notebook_node nb rd = .ok (output, resources)) :
    ∃ resp,
      (call_nbconvert env lib cm config_dir dl format path config
          content).outcome = .ok resp ∧
      resp.headers.lastModified =
        some ((cm.get (stripSlashes path)).last_modified) ∧
      (call_nbconvert env lib cm config_dir dl format path config
          content).engineCalls =
        [((match content with
            | none => (cm.get (stripSlashes path)).content
            | some c => env.nbformat_reads c),
          { metadata :=
              { name := splitextStem (cm.get (stripSlashes path)).name
                modified_date :=
                  some (env.strftime ((cm.get (stripSlashes path)).last_modified))
                path :=
                  match
                    match cm.os_path with
                    | some f => some (os_path_split_head (f (stripSlashes path)))
                    | none => none
                  with
                  | some d => if d ≠ "" then some d else none
                  | none => none }
            config_dir := config_dir
            output_files_dir :=
              some (splitextStem (cm.get (stripSlashes path)).name ++
                "_files") })] := by
  simp only [call_nbconvert, hexp, htype, heng, ne_eq, not_true_eq_false,
    if_false, ite_false]
  rcases hrz : respond_zip
      { lastModified := some ((cm.get (stripSlashes path)).last_modified) }
      ((cm.get (stripSlashes path)).name) output resources with _ | resp
  · by_cases hdl : (pyLower (dl.getD "false") = "true") <;>
      by_cases hm : exporter.output_mimetype = "" <;>
        simp [hdl, hm]
  · refine ⟨resp, rfl, ?_, rfl⟩
    simpa using respond_zip_lastModified _ _ _ _ _ hrz

/-- C7: on the POST-with-path route the document handed to the engine is
the body's inline `notebook` member serialized back to notebook text and
decoded — not the stored content — while the `Last-Modified` header and
the descriptor's source-directory field still come from the storage
metadata of the path. -/
theorem C7_post_inline_content (env : Env) (lib : EngineLib)
    (cm : ContentsManager) (config_dir : String) (dl : Option String)
    (format path : String) (ambient : Config) (body : Json) (cs : String)
    (cj nbJson : Json) (exporter : Exporter) (output : Output)
    (resources : Resources) (toOsPath : String → String)
    (hcs : jsonGet body "config" = some (.str cs))
    (hparse : env.json_parse cs = .ok cj)
    (hnb : jsonGet body "notebook" = some nbJson)
    (hexp : get_exporter lib format ⟨ambient.layers ++ [cj]⟩ = .ok exporter)
    (htype : (cm.get (stripSlashes path)).type = "notebook")
    (hos : cm.os_path = some toOsPath)
    (hdir : os_path_split_head (toOsPath (stripSlashes path)) ≠ "")
    (heng : ∀ nb rd, exporter.from_notebook_node nb rd = .ok (output, resources)) :
    ∃ resp rd,
      (NbconvertFileHandler.handler_post env lib cm config_dir dl format path
          ambient body).outcome = .ok resp ∧
      (NbconvertFileHandler.handler_post env lib cm config_dir dl format path
          ambient body).engineCalls =
        [(env.nbformat_reads (env.json_dumps nbJson), rd)] ∧
      rd.metadata.path =
        some (os_path_split_head (toOsPath (stripSlashes path))) ∧
      resp.headers.lastModified =
        some ((cm.get (stripSlashes path)).last_modified) := by
  have hred : NbconvertFileHandler.handler_post env lib cm config_dir dl
      format path ambient body =
      call_nbconvert env lib cm config_dir dl format path
        ⟨ambient.layers ++ [cj]⟩ (some (env.json_dumps nbJson)) := by
    simp [NbconvertFileHandler.handler_post, hcs, hparse, hnb, json_loads,
      Config.merge]
  rw [hred]
  obtain ⟨resp, ho, hlm, hec⟩ := call_nbconvert_engine_spec env lib cm
    config_dir dl format path ⟨ambient.layers ++ [cj]⟩
    (some (env.json_dumps nbJson)) exporter output resources hexp htype heng
  refine ⟨resp,
    { metadata :=
        { name := splitextStem (cm.get (stripSlashes path)).name
          modified_date :=
            some (env.strftime ((cm.get (stripSlashes path)).last_modified))
          path :=
            match
              match cm.os_path with
              | some f => some (os_path_split_head (f (stripSlashes path)))
              | none => none
            with
            | some d => if d ≠ "" then some d else none
            | none => none }
      config_dir := config_dir
      output_files_dir :=
        some (splitextStem (cm.get (stripSlashes path)).name ++ "_files") },
    ho, ?_, ?_, hlm⟩
  · rw [hec]
  · simp [hos, hdir]

/-- Witness for C7: the sample POST-with-path conversion uses the decoded
inline body, not the stored notebook. -/
theorem C7_post_inline_content_witness :
    jsonGet (Json.obj [("config", Json.str "{}"), ("notebook", Json.obj [])])
        "config" = some (.str "{}") ∧
    sampleEnv.json_parse "{}" = .ok (Json.obj []) ∧
    (sampleCM.get (stripSlashes "foo.ipynb")).type = "notebook" ∧
    os_path_split_head ((fun p => "/srv/books/" ++ p)
      (stripSlashes "foo.ipynb")) ≠ "" ∧
    ∃ resp rd,
      (NbconvertFileHandler.handler_post sampleEnv sampleLib sampleCM "/cfg"
          none "html" "foo.ipynb" ⟨[]⟩
          (Json.obj [("config", Json.str "{}"),
            ("notebook", Json.obj [])])).outcome = .ok resp ∧
      (NbconvertFileHandler.handler_post sampleEnv sampleLib sampleCM "/cfg"
          none "html" "foo.ipynb" ⟨[]⟩
          (Json.obj [("config", Json.str "{}"),
            ("notebook", Json.obj [])])).engineCalls =
        [(sampleEnv.nbformat_reads
            (sampleEnv.json_dumps (Json.obj [])), rd)] ∧
      rd.metadata.path =
        some (os_path_split_head ((fun p => "/srv/books/" ++ p)
          (stripSlashes "foo.ipynb"))) ∧
      resp.headers.lastModified =
        some ((sampleCM.get (stripSlashes "foo.ipynb")).last_modified) :=
  ⟨rfl, rfl, rfl, by decide,
    C7_post_inline_content sampleEnv sampleLib sampleCM "/cfg" none "html"
      "foo.ipynb" ⟨[]⟩
      (Json.obj [("config", Json.str "{}"), ("notebook", Json.obj [])])
      "{}" (Json.obj []) (Json.obj []) htmlExporter (.text "<html/>")
      htmlResources (fun p => "/srv/books/" ++ p) rfl rfl rfl rfl rfl rfl
      (by decide) (fun _ _ => rfl)⟩

/-- C8: a POST-with-path body that omits the optional `config` member is
not processed — `json_upload.get("config", {})` hands the dict default
straight to `json.loads`, which raises a `TypeError`, so the request
dies with an uncaught exception (a framework 500) before the exporter or
the notebook is ever touched, against the documented optionality. -/
theorem C8_missing_config_type_error :
    NbconvertFileHandler.handler_post sampleEnv sampleLib sampleCM "/cfg"
        none "html" "foo.ipynb" ⟨[]⟩
        (Json.obj [("notebook", Json.obj [])]) =
      ⟨.pyError
        (.typeError "the JSON object must be str, bytes or bytearray"),
        [], []⟩ := rfl

/-- C9 counterexample: the resource dictionary of a submit-by-body
conversion carries no output-files directory at all, against the claim
that both routes pass `<title>_files`. -/
theorem C9_counterexample :
    (NbconvertPostHandler.handler_post sampleEnv sampleLib "/cfg" none
        "html" ⟨[]⟩
        (Json.obj [("content", Json.obj []),
          ("name", Json.str "untitled.ipynb")])).engineCalls.map
      (fun call => call.2.output_files_dir) = [none] ∧
    (none : Option String) ≠ some ("untitled" ++ "_files") :=
  ⟨rfl, by decide⟩

/-- C9 (amended): the path route passes an output-files directory equal
to the title followed by `_files`; the submit-by-body route passes no
output-files directory at all. -/
theorem C9_output_files_dir :
    (∀ (env : Env) (lib : EngineLib) (cm : ContentsManager)
        (config_dir : String) (dl : Option String) (format path : String)
        (config : Config) (content : Option String) (exporter : Exporter)
        (output : Output) (resources : Resources),
      get_exporter lib format config = .ok exporter →
      (cm.get (stripSlashes path)).type = "notebook" →
      (∀ nb rd, exporter.from_notebook_node nb rd = .ok (output, resources)) →
      ∃ nb rd,
        (call_nbconvert env lib cm config_dir dl format path config
            content).engineCalls = [(nb, rd)] ∧
        rd.output_files_dir =
          some (splitextStem (cm.get (stripSlashes path)).name ++ "_files")) ∧
    (∀ (env : Env) (lib : EngineLib) (config_dir : String)
        (dl : Option String) (format : String) (ambient : Config)
        (model : Json) (exporter : Exporter) (name : String)
        (contentJson : Json) (output : Output) (resources : Resources),
      get_exporter lib format ambient = .ok exporter →
      NbconvertPostHandler.bodyName model = .ok name →
      jsonGet model "content" = some contentJson →
      (∀ nb rd, exporter.from_notebook_node nb rd = .ok (output, resources)) →
      ∃ nb rd,
        (NbconvertPostHandler.handler_post env lib config_dir dl format
            ambient model).engineCalls = [(nb, rd)] ∧
        rd.output_files_dir = none) := by
  constructor
  · intro env lib cm config_dir dl format path config content exporter
      output resources hexp htype heng
    obtain ⟨resp, ho, hlm, hec⟩ := call_nbconvert_engine_spec env lib cm
      config_dir dl format path config content exporter output resources
      hexp htype heng
    exact ⟨_, _, hec, rfl⟩
  · intro env lib config_dir dl format ambient model exporter name
      contentJson output resources hexp hname hcontent heng
    simp only [NbconvertPostHandler.handler_post, hexp, hname, hcontent, heng]
    rcases hrz : respond_zip {} name output resources with _ | resp
    · by_cases hm : exporter.output_mimetype = "" <;> simp [hm] <;>
        exact ⟨_, _, ⟨rfl, rfl⟩, rfl⟩
    · exact ⟨_, _, rfl, rfl⟩

/-- Witness for C9 on the path route: converting `foo.ipynb` passes
`foo_files`. -/
theorem C9_output_files_dir_witness :
    get_exporter sampleLib "html" ⟨[]⟩ = .ok htmlExporter ∧
    (sampleCM.get (stripSlashes "foo.ipynb")).type = "notebook" ∧
    ∃ nb rd,
      (call_nbconvert sampleEnv sampleLib sampleCM "/cfg" none "html"
          "foo.ipynb" ⟨[]⟩ none).engineCalls = [(nb, rd)] ∧
      rd.output_files_dir =
        some (splitextStem (sampleCM.get (stripSlashes "foo.ipynb")).name ++
          "_files") :=
  ⟨rfl, rfl, C9_output_files_dir.1 sampleEnv sampleLib sampleCM "/cfg" none
    "html" "foo.ipynb" ⟨[]⟩ none htmlExporter (.text "<html/>")
    htmlResources rfl rfl (fun _ _ => rfl)⟩

/-- C10 counterexample: a submit-by-body name without a dot is not left
intact — `name[:name.rfind('.')]` slices with `-1` and drops the final
character, so the name `foo` yields the metadata title `fo`. -/
theorem C10_counterexample :
    (NbconvertPostHandler.handler_post sampleEnv sampleLib "/cfg" none
        "html" ⟨[]⟩
        (Json.obj [("content", Json.obj []),
          ("name", Json.str "foo")])).engineCalls.map
      (fun call => call.2.metadata.name) = ["fo"] ∧
    ("fo" : String) ≠ "foo" :=
  ⟨rfl, by decide⟩

/-- C10 (amended): the submit-by-body metadata title is
`name[:name.rfind('.')]` — the portion before the final dot, which for
dotless names drops the final character — with the constant
`notebook.ipynb` (title `notebook`) standing in when no name is
supplied. -/
theorem C10_body_title :
    (∀ (env : Env) (lib : EngineLib) (config_dir : String)
        (dl : Option String) (format : String) (ambient : Config)
        (model : Json) (exporter : Exporter) (s : String)
        (contentJson : Json),
      get_exporter lib format ambient = .ok exporter →
      jsonGet model "name" = some (.str s) →
      jsonGet model "content" = some contentJson →
      ∃ nb rd,
        (NbconvertPostHandler.handler_post env lib config_dir dl format
            ambient model).engineCalls = [(nb, rd)] ∧
        rd.metadata.name = pySliceTo s (pyRFind s '.')) ∧
    (∀ (env : Env) (lib : EngineLib) (config_dir : String)
        (dl : Option String) (format : String) (ambient : Config)
        (model : Json) (exporter : Exporter) (contentJson : Json),
      get_exporter lib format ambient = .ok exporter →
      jsonGet model "name" = none →
      jsonGet model "content" = some contentJson →
      ∃ nb rd,
        (NbconvertPostHandler.handler_post env lib config_dir dl format
            ambient model).engineCalls = [(nb, rd)] ∧
        rd.metadata.name = "notebook") := by
  constructor
  · intro env lib config_dir dl format ambient model exporter s contentJson
      hexp hname hcontent
    have hbn : NbconvertPostHandler.bodyName model = .ok s := by
      simp [NbconvertPostHandler.bodyName, hname]
    simp only [NbconvertPostHandler.handler_post, hexp, hbn, hcontent]
    rcases hcall : exporter.from_notebook_node (env.from_dict contentJson)
        { metadata := { name := pySliceTo s (pyRFind s '.') }
          config_dir := config_dir
          output_files_dir := none } with e | pr
    · exact ⟨_, _, rfl, rfl⟩
    · obtain ⟨output, resources⟩ := pr
      rcases hrz : respond_zip {} s output resources with _ | resp
      · by_cases hm : exporter.output_mimetype = "" <;> simp [hrz, hm] <;>
          exact ⟨_, _, ⟨rfl, rfl⟩, rfl⟩
      · simp only [hrz]
        exact ⟨_, _, rfl, rfl⟩
  · intro env lib config_dir dl format ambient model exporter contentJson
      hexp hname hcontent
    have hbn : NbconvertPostHandler.bodyName model = .ok "notebook.ipynb" := by
      simp [NbconvertPostHandler.bodyName, hname]
    simp only [NbconvertPostHandler.handler_post, hexp, hbn, hcontent]
    rcases hcall : exporter.from_notebook_node (env.from_dict contentJson)
        { metadata :=
            { name := pySliceTo "notebook.ipynb" (pyRFind "notebook.ipynb" '.') }
          config_dir := config_dir
          output_files_dir := none } with e | pr
    · exact ⟨_, _, rfl,
        (by decide :
          pySliceTo "notebook.ipynb" (pyRFind "notebook.ipynb" '.') =
            "notebook")⟩
    · obtain ⟨output, resources⟩ := pr
      rcases hrz : respond_zip {} "notebook.ipynb" output resources with _ | resp
      · by_cases hm : exporter.output_mimetype = "" <;> simp [hrz, hm] <;>
          exact ⟨_, _, ⟨rfl, rfl⟩,
            (by decide :
              pySliceTo "notebook.ipynb" (pyRFind "notebook.ipynb" '.') =
                "notebook")⟩
      · simp only [hrz]
        exact ⟨_, _, rfl,
          (by decide :
            pySliceTo "notebook.ipynb" (pyRFind "notebook.ipynb" '.') =
              "notebook")⟩

/-- Witness for C10: the name `untitled.ipynb` resolves to the title
`untitled`. -/
theorem C10_body_title_witness :
    get_exporter sampleLib "html" ⟨[]⟩ = .ok htmlExporter ∧
    (∃ nb rd,
      (NbconvertPostHandler.handler_post sampleEnv sampleLib "/cfg" none
          "html" ⟨[]⟩
          (Json.obj [("content", Json.obj []),
            ("name", Json.str "untitled.ipynb")])).engineCalls = [(nb, rd)] ∧
      rd.metadata.name =
        pySliceTo "untitled.ipynb" (pyRFind "untitled.ipynb" '.')) ∧
    pySliceTo "untitled.ipynb" (pyRFind "untitled.ipynb" '.') = "untitled" :=
  ⟨rfl, C10_body_title.1 sampleEnv sampleLib "/cfg" none "html" ⟨[]⟩
    (Json.obj [("content", Json.obj []), ("name", Json.str "untitled.ipynb")])
    htmlExporter "untitled.ipynb" (Json.obj []) rfl rfl rfl, by decide⟩

end Nbconvert
